import Mathlib

/-!
Verification of the lazy filesystem-tree core of the Lemon file browser
(`src/Lemon.py`).  Paths are modelled as lists of name components; the
filesystem is a finite association list from paths to entry kinds, together
with maps injecting the OS errors the Python code catches (permission /
not-found / other) at each fallible call site.  Tree nodes mirror Textual
`TreeNode`s as used by the program: a label, optional `data` path, the
dynamically attached `data_is_dir` attribute (absent on file and placeholder
nodes), the `allow_expand` flag, the expansion flag, and a children list.
-/

/-- A filesystem path, as its list of name components (root = `[]`). -/
abbrev FPath := List String

/-- The kind an existing filesystem entry can have (`other` covers entries
that are neither regular files nor directories, e.g. sockets). -/
inductive FKind where
  | file
  | dir
  | other
deriving DecidableEq, Repr

/-- `Path.name` in Python: the last component, `""` for the root. -/
def pathName (p : FPath) : String := p.getLast?.getD ""

/-- The parent path (`Path.parent` style): drop the last component. -/
def pathParent (p : FPath) : FPath := p.dropLast

/-- Result of the per-path type probes and the directory listing for one
entry visited by `load_children`: its full path, its `.name`, the results of
`is_dir()` / `is_file()`, and whether the per-entry type inspection raises
`PermissionError` (the inner `try` of the loading loop). -/
structure FsEntry where
  path : FPath
  name : String
  isDir : Bool
  isFile : Bool
  permErr : Bool
deriving DecidableEq, Repr

/-- Errors `iterdir` can raise, as caught by `load_children`. -/
inductive ListErr where
  | permissionError
  | otherError (msg : String)
deriving DecidableEq, Repr

/-- Errors `unlink` / `shutil.rmtree` can raise, as caught by
`handle_delete_confirm`. -/
inductive DelErr where
  | permissionError
  | fileNotFound
  | otherError (msg : String)
deriving DecidableEq, Repr

/-- The filesystem state: the entries that exist, plus error-injection maps
modelling the OS failures (permission problems, races with external
mutation) that each fallible syscall may report. -/
structure FS where
  entries : List (FPath × FKind)
  listErr : FPath → Option ListErr
  entryPermErr : FPath → Bool
  unlinkErr : FPath → Option DelErr
  rmtreeErr : FPath → Option DelErr

/-- The kind recorded for a path, if the path exists. -/
def FS.kindOf (fs : FS) (p : FPath) : Option FKind := fs.entries.lookup p

/-- `Path.is_dir()`. -/
def FS.isDirP (fs : FS) (p : FPath) : Bool := fs.kindOf p == some .dir

/-- `Path.is_file()`. -/
def FS.isFileP (fs : FS) (p : FPath) : Bool := fs.kindOf p == some .file

/-- `Path.exists()`. -/
def FS.existsP (fs : FS) (p : FPath) : Bool := (fs.kindOf p).isSome

/-- `Path.iterdir()` on success: the entries one level below `p`, each
carrying the results of its type probes. -/
def FS.iterdir (fs : FS) (p : FPath) : List FsEntry :=
  (fs.entries.filter fun q => q.1.length == p.length + 1 && p.isPrefixOf q.1).map
    fun q =>
      { path := q.1, name := pathName q.1, isDir := fs.isDirP q.1,
        isFile := fs.isFileP q.1, permErr := fs.entryPermErr q.1 }

/-- Remove the single entry at `p` (the effect of a successful `unlink`). -/
def FS.removeFile (fs : FS) (p : FPath) : FS :=
  { fs with entries := fs.entries.filter fun q => q.1 ≠ p }

/-- Remove `p` and everything below it (the effect of a successful
`shutil.rmtree`). -/
def FS.removeTree (fs : FS) (p : FPath) : FS :=
  { fs with entries := fs.entries.filter fun q => ¬ (p.isPrefixOf q.1) }

/-- `Path.unlink()`: an injected OS error wins; otherwise the file is
removed if present, and `FileNotFoundError` is raised if it vanished. -/
def FS.unlink (fs : FS) (p : FPath) : Except DelErr FS :=
  match fs.unlinkErr p with
  | some e => .error e
  | none => if fs.isFileP p then .ok (fs.removeFile p) else .error .fileNotFound

/-- `shutil.rmtree(path)`: as `unlink`, for directories. -/
def FS.rmtree (fs : FS) (p : FPath) : Except DelErr FS :=
  match fs.rmtreeErr p with
  | some e => .error e
  | none => if fs.isDirP p then .ok (fs.removeTree p) else .error .fileNotFound

/-- A Textual tree node as this program uses it: label, optional `data`
path, the dynamically attached `data_is_dir` attribute (`none` when the
attribute is absent), `allow_expand`, the expansion flag, and children. -/
inductive TNode where
  | mk (label : String) (data : Option FPath) (dataIsDir : Option Bool)
      (allowExpand : Bool) (isExpanded : Bool) (children : List TNode)

def TNode.label : TNode → String
  | .mk l _ _ _ _ _ => l

def TNode.data : TNode → Option FPath
  | .mk _ d _ _ _ _ => d

def TNode.dataIsDir : TNode → Option Bool
  | .mk _ _ dd _ _ _ => dd

def TNode.allowExpand : TNode → Bool
  | .mk _ _ _ a _ _ => a

def TNode.isExpanded : TNode → Bool
  | .mk _ _ _ _ e _ => e

def TNode.children : TNode → List TNode
  | .mk _ _ _ _ _ c => c

/-- Replace a node's children (the effect of repopulating after
`remove_children`). -/
def TNode.setChildren : TNode → List TNode → TNode
  | .mk l d dd a e _, cs => .mk l d dd a e cs

/-- `node.expand()` / `node.collapse()` on the expansion flag. -/
def TNode.setExpanded : TNode → Bool → TNode
  | .mk l d dd a _ c, e => .mk l d dd a e c

/-- Code-point lexicographic comparison of character lists — the order
Python uses on `str`. -/
def charListLe : List Char → List Char → Bool
  | [], _ => true
  | _ :: _, [] => false
  | c :: cs, d :: ds =>
    if c.toNat < d.toNat then true
    else if d.toNat < c.toNat then false
    else charListLe cs ds

/-- Python's `s1 <= s2` on strings: code-point lexicographic. -/
def strLe (a b : String) : Bool := charListLe a.data b.data

/-- `str.lower()`, restricted to the basic latin letters the inputs of
interest use. -/
def pyLower (s : String) : String := ⟨s.data.map Char.toLower⟩

/-- Python's character slice `s[:n]`. -/
def strTake (s : String) (n : Nat) : String := ⟨s.data.take n⟩

/-- The sort key of `load_children`'s `sorted` call, numeric part:
`not x.is_dir()` with `False < True` rendered as `0 < 1`. -/
def entryKindKey (e : FsEntry) : Nat := if e.isDir then 0 else 1

/-- The comparison underlying `sorted(path.iterdir(), key=lambda x:
(not x.is_dir(), x.name.lower()))`: lexicographic on the pair
(`not is_dir`, lowercased name). -/
def entryLE (a b : FsEntry) : Bool :=
  decide (entryKindKey a < entryKindKey b) ||
    (decide (entryKindKey a = entryKindKey b) &&
      strLe (pyLower a.name) (pyLower b.name))

/-- `entryLE` as a relation, for `List.insertionSort`. -/
def entryRel (a b : FsEntry) : Prop := entryLE a b = true

instance : DecidableRel entryRel := fun a b =>
  inferInstanceAs (Decidable (entryLE a b = true))

/-- The child node `load_children` adds for a directory entry:
`node.add(label=f"📁 {entry.name}", data=entry)` followed by
`child.data_is_dir = True`. -/
def dirChildNode (e : FsEntry) : TNode :=
  .mk ("📁 " ++ e.name) (some e.path) (some true) true false []

/-- The child node `load_children` adds for a file entry:
`node.add(label=entry.name, data=entry, allow_expand=False)`. -/
def fileChildNode (e : FsEntry) : TNode :=
  .mk e.name (some e.path) none false false []

/-- The placeholder child on a whole-directory `PermissionError`:
`node.add(label="[权限不足]", allow_expand=False)`. -/
def permissionPlaceholder : TNode :=
  .mk "[权限不足]" none none false false []

/-- The placeholder child on any other listing error:
`node.add(label=f"[加载错误: {str(e)[:20]}]", allow_expand=False)`. -/
def loadErrorPlaceholder (msg : String) : TNode :=
  .mk ("[加载错误: " ++ strTake msg 20 ++ "]") none none false false []

/-- The children `load_children` computes for a given `path` argument:
nothing when `path` is `None` or not a directory; a single placeholder when
the listing raises; otherwise one node per surviving entry of the sorted
listing, entries whose type inspection raises `PermissionError` skipped.
Python's `sorted` is a stable sort, and for the total preorder induced by
the key function every stable sort returns the same list, so it is rendered
here by the (stable) insertion sort. -/
def computeChildren (fs : FS) (path : Option FPath) : List TNode :=
  match path with
  | none => []
  | some p =>
    if fs.isDirP p then
      match fs.listErr p with
      | some .permissionError => [permissionPlaceholder]
      | some (.otherError m) => [loadErrorPlaceholder m]
      | none =>
        ((List.insertionSort entryRel (fs.iterdir p)).filter fun e => !e.permErr).map
          fun e => if e.isDir && !e.isFile then dirChildNode e else fileChildNode e
    else []

/-- `load_children(node, path)`: `remove_children()` first, then repopulate
from the filesystem (`computeChildren`). -/
def loadChildren (fs : FS) (node : TNode) (path : Option FPath) : TNode :=
  node.setChildren (computeChildren fs path)

/-- A `self.notify(...)` call: message and title. -/
structure Notice where
  message : String
  title : String
deriving DecidableEq, Repr

/-- A destructive filesystem call issued by the delete handler. -/
inductive FsOp where
  | unlink (p : FPath)
  | rmtree (p : FPath)
deriving DecidableEq, Repr

/-- A Python exception escaping a handler uncaught. -/
inductive PyErr where
  | attributeError
deriving DecidableEq, Repr

/-- What Python prints for `None.is_file()` (its first 30 characters are
what the `except Exception` branch embeds in its notification). -/
def noneTypeNoIsFile : String := "'NoneType' object has no attribute 'is_file'"

/-- The observable outcome of `handle_delete_confirm`: the filesystem
afterwards, the (possibly reloaded/expanded) parent of the cursor node, the
destructive calls issued, and the notifications shown. -/
structure ConfirmResult where
  fs : FS
  cursorParent : Option TNode
  ops : List FsOp
  notices : List Notice

/-- `handle_delete_confirm(confirmed)`.  Inputs: the filesystem, the value
of `self.file_tree.cursor_node` at confirmation time, that node's parent,
and the boolean from the modal.  `selected_node.data` is read before the
`try` block, so a `None` cursor raises `AttributeError` uncaught; a cursor
whose `data` is `None` raises inside the `try` and is caught by the
`except Exception` arm. -/
def handle_delete_confirm (fs : FS) (cursor : Option TNode)
    (parentOf : Option TNode) (confirmed : Bool) : Except PyErr ConfirmResult :=
  if ¬ confirmed then
    .ok ⟨fs, parentOf, [], [⟨"已取消删除", "提示"⟩]⟩
  else
    match cursor with
    | none => .error .attributeError
    | some sel =>
      match sel.data with
      | none => .ok ⟨fs, parentOf, [], [⟨"删除失败：" ++ strTake noneTypeNoIsFile 30, "错误"⟩]⟩
      | some p =>
        let attempt : List FsOp × Except DelErr FS :=
          if fs.isFileP p then ([.unlink p], fs.unlink p)
          else if fs.isDirP p then ([.rmtree p], fs.rmtree p)
          else ([], .ok fs)
        match attempt with
        | (ops, .error .permissionError) =>
          .ok ⟨fs, parentOf, ops, [⟨"权限不足，无法删除", "错误"⟩]⟩
        | (ops, .error .fileNotFound) =>
          .ok ⟨fs, parentOf, ops, [⟨"文件/目录不存在", "错误"⟩]⟩
        | (ops, .error (.otherError m)) =>
          .ok ⟨fs, parentOf, ops, [⟨"删除失败：" ++ strTake m 30, "错误"⟩]⟩
        | (ops, .ok fs2) =>
          let parent2 : Option TNode :=
            match parentOf with
            | some par =>
              if par.dataIsDir ≠ none then
                some ((loadChildren fs2 par par.data).setExpanded true)
              else some par
            | none => none
          .ok ⟨fs2, parent2, ops, [⟨"已删除：" ++ pathName p, "删除成功"⟩]⟩

/-- The observable outcome of `action_refresh`: the cursor node, its
parent, the top-level root nodes, and the notifications shown. -/
structure RefreshResult where
  cursor : Option TNode
  cursorParent : Option TNode
  rootChildren : List TNode
  notices : List Notice

/-- `action_refresh` (F5).  Inputs: the filesystem, the cursor node, its
parent, and the children of the invisible tree root (the top-level
anchors). -/
def action_refresh (fs : FS) (cursor : Option TNode) (parentOf : Option TNode)
    (rootChildren : List TNode) : RefreshResult :=
  match cursor with
  | some sel =>
    if sel.dataIsDir = some true ∧ sel.data ≠ none then
      { cursor := some ((loadChildren fs sel sel.data).setExpanded true),
        cursorParent := parentOf, rootChildren := rootChildren,
        notices := [⟨"已刷新目录", "刷新成功"⟩] }
    else
      match parentOf with
      | some par =>
        if par.dataIsDir ≠ none then
          { cursor := some sel,
            cursorParent := some ((loadChildren fs par par.data).setExpanded true),
            rootChildren := rootChildren,
            notices := [⟨"已刷新父目录", "刷新成功"⟩] }
        else
          { cursor := some sel, cursorParent := some par,
            rootChildren := rootChildren, notices := [] }
      | none =>
        { cursor := some sel, cursorParent := none,
          rootChildren := rootChildren, notices := [] }
  | none =>
    { cursor := none, cursorParent := parentOf,
      rootChildren := rootChildren.map fun r =>
        if r.dataIsDir = some true then loadChildren fs r r.data else r,
      notices := [⟨"已刷新文件系统", "刷新成功"⟩] }

/-- The outcome of `action_delete_selected` (Ctrl+D): either a notification
and no modal, or the confirmation modal pushed with the path it displays. -/
inductive DeleteRequestResult where
  | noModal (n : Notice)
  | showConfirm (dialogPath : FPath)
deriving DecidableEq, Repr

/-- `action_delete_selected`: validate the cursor node (present, has a
`Path` as `data`, and the path still exists), then push the confirmation
modal carrying that path. -/
def action_delete_selected (fs : FS) (cursor : Option TNode) : DeleteRequestResult :=
  match cursor with
  | none => .noModal ⟨"未选中任何文件/目录", "提示"⟩
  | some sel =>
    match sel.data with
    | none => .noModal ⟨"选中项无效或不存在", "提示"⟩
    | some p =>
      if fs.existsP p then .showConfirm p
      else .noModal ⟨"选中项无效或不存在", "提示"⟩

/-- `sys.platform` values the code branches on. -/
inductive Platform where
  | win32
  | linux
  | darwin
  | otherOS (s : String)
deriving DecidableEq, Repr

/-- A dispatch to the platform's open-with-default-application mechanism:
`os.startfile(path)` on Windows, `subprocess.Popen([cmd, str(path)])`
elsewhere. -/
inductive OpenDispatch where
  | startfile (p : FPath)
  | popen (cmd : String) (p : FPath)
deriving DecidableEq, Repr

/-- The environment `open_file` runs against: the platform, the result of
`Path.resolve()`, and the result (success or raised error message) of each
dispatch mechanism. -/
structure OpenEnv where
  platform : Platform
  resolveRes : FPath → Except String FPath
  startfileRes : FPath → Except String Unit
  popenRes : String → FPath → Except String Unit

/-- The observable outcome of `open_file`: its boolean return value, the
dispatches issued, and the diagnostic lines printed. -/
structure OpenResult where
  success : Bool
  dispatched : List OpenDispatch
  printed : List String

/-- `open_file(file_path)`: resolve to an absolute path, dispatch by
platform, return `True`; any raised error is caught, printed, and turned
into `False`.  On a platform other than the three known ones nothing is
dispatched and `True` is returned. -/
def open_file (env : OpenEnv) (p : FPath) : OpenResult :=
  match env.resolveRes p with
  | .error e => ⟨false, [], ["打开文件错误：" ++ e]⟩
  | .ok rp =>
    match env.platform with
    | .win32 =>
      match env.startfileRes rp with
      | .ok _ => ⟨true, [.startfile rp], []⟩
      | .error e => ⟨false, [.startfile rp], ["打开文件错误：" ++ e]⟩
    | .linux =>
      match env.popenRes "xdg-open" rp with
      | .ok _ => ⟨true, [.popen "xdg-open" rp], []⟩
      | .error e => ⟨false, [.popen "xdg-open" rp], ["打开文件错误：" ++ e]⟩
    | .darwin =>
      match env.popenRes "open" rp with
      | .ok _ => ⟨true, [.popen "open" rp], []⟩
      | .error e => ⟨false, [.popen "open" rp], ["打开文件错误：" ++ e]⟩
    | .otherOS _ => ⟨true, [], []⟩

/-- Projection of the delete calls out of a confirmation outcome (empty
when the handler raised). -/
def opsOf : Except PyErr ConfirmResult → List FsOp
  | .ok r => r.ops
  | .error _ => []

/-- Projection of the notifications out of a confirmation outcome. -/
def noticesOf : Except PyErr ConfirmResult → List Notice
  | .ok r => r.notices
  | .error _ => []

/-- Projection of the cursor-parent node out of a confirmation outcome. -/
def parentOfResult : Except PyErr ConfirmResult → Option TNode
  | .ok r => r.cursorParent
  | .error _ => none

/-- The `.name` a child node displays, recovered from its `data` path. -/
def childName (t : TNode) : String := pathName (t.data.getD [])

/-- The sibling-order the specification prescribes between two adjacent
children: a file never precedes a directory, and inside one group the
lowercased names are in lexicographic order. -/
def childOrdered (a b : TNode) : Prop :=
  (b.dataIsDir = some true → a.dataIsDir = some true) ∧
    (a.dataIsDir = b.dataIsDir →
      strLe (pyLower (childName a)) (pyLower (childName b)) = true)

/-- The platform-specific open-with-default-application mechanism of the
specification (§4.1): `os.startfile` on Windows, `xdg-open` on Linux,
`open` on macOS, nothing known elsewhere. -/
def platformOpenMechanism (plat : Platform) (rp : FPath) : Option OpenDispatch :=
  match plat with
  | .win32 => some (.startfile rp)
  | .linux => some (.popen "xdg-open" rp)
  | .darwin => some (.popen "open" rp)
  | .otherOS _ => none

/-- Outcome of one dispatch in a given environment. -/
def dispatchResult (env : OpenEnv) : OpenDispatch → Except String Unit
  | .startfile p => env.startfileRes p
  | .popen c p => env.popenRes c p

/-- The `openWithDefaultHandler` contract, phrased from the specification:
the path is first resolved; a resolution error yields `false` and no
dispatch; otherwise exactly the platform mechanism is dispatched, on the
resolved path, and it succeeds exactly when the dispatch did not raise.
Nothing is asserted about platforms without a known mechanism. -/
def openContract (env : OpenEnv) (p : FPath) : Prop :=
  match env.resolveRes p with
  | .error _ => (open_file env p).success = false ∧ (open_file env p).dispatched = []
  | .ok rp =>
    match platformOpenMechanism env.platform rp with
    | some d =>
      (open_file env p).dispatched = [d] ∧
        ((open_file env p).success = true ↔ dispatchResult env d = .ok ())
    | none => True

/-- A filesystem with the given entries and no injected OS errors. -/
def plainFS (entries : List (FPath × FKind)) : FS :=
  ⟨entries, fun _ => none, fun _ => false, fun _ => none, fun _ => none⟩

/-- A loaded directory node, as `load_children` would create it. -/
def dirNode (label : String) (p : FPath) (expanded : Bool) : TNode :=
  .mk label (some p) (some true) true expanded []

/-- A loaded file node, as `load_children` would create it. -/
def fileNode (label : String) (p : FPath) : TNode :=
  .mk label (some p) none false false []

/-- Fixture: a directory `tmp` holding two files. -/
def tmpFS : FS :=
  plainFS [(["tmp"], .dir), (["tmp", "a.txt"], .file), (["tmp", "b.txt"], .file)]

/-- Fixture: the tree node for `tmp`. -/
def tmpDirNode : TNode := dirNode "📁 tmp" ["tmp"] false

/-- Fixture: a cursor node whose path is absent from `tmpFS`. -/
def ghostNode : TNode := fileNode "ghost.txt" ["tmp", "ghost.txt"]

/-- Fixture: the root directory of the sibling-ordering example, holding
`bravo/`, `Alpha.txt`, `charlie/` and `alpha.txt`, listed in that order. -/
def sortExampleFS : FS :=
  plainFS [([], .dir), (["bravo"], .dir), (["Alpha.txt"], .file),
    (["charlie"], .dir), (["alpha.txt"], .file)]

/-- Fixture: the anchor node of the sibling-ordering example. -/
def sortExampleRoot : TNode := dirNode "📁 /" [] false

/-- Fixture: a directory whose listing raises `PermissionError`. -/
def permErrFS : FS :=
  ⟨[(["locked"], .dir)], fun _ => some .permissionError, fun _ => false,
    fun _ => none, fun _ => none⟩

/-- Fixture: a directory whose listing raises an unexpected error with a
long message. -/
def otherErrFS : FS :=
  ⟨[(["flaky"], .dir)], fun _ => some (.otherError "device not configured at all"),
    fun _ => false, fun _ => none, fun _ => none⟩

/-- Fixture: an environment whose `Path.resolve()` raises. -/
def resolveFailEnv : OpenEnv :=
  ⟨.linux, fun _ => .error "loop", fun _ => .ok (), fun _ _ => .ok ()⟩

/-- Fixture: the outcome of confirming deletion of `tmp/b.txt` while the
cursor sits on its node and the parent is `tmpDirNode`. -/
def resAfterDeleteB : ConfirmResult :=
  ⟨tmpFS.removeFile ["tmp", "b.txt"],
    some ((loadChildren (tmpFS.removeFile ["tmp", "b.txt"]) tmpDirNode
      tmpDirNode.data).setExpanded true),
    [.unlink ["tmp", "b.txt"]], [⟨"已删除：b.txt", "删除成功"⟩]⟩

theorem setChildren_setChildren (n : TNode) (cs cs2 : List TNode) :
    (n.setChildren cs).setChildren cs2 = n.setChildren cs2 := by
  cases n
  rfl

theorem setExpanded_isExpanded (n : TNode) (e : Bool) :
    (n.setExpanded e).isExpanded = e := by
  cases n
  rfl

theorem setExpanded_children (n : TNode) (e : Bool) :
    (n.setExpanded e).children = n.children := by
  cases n
  rfl

theorem setChildren_children (n : TNode) (cs : List TNode) :
    (n.setChildren cs).children = cs := by
  cases n
  rfl

theorem loadChildren_isExpanded (fs : FS) (n : TNode) (p : Option FPath) :
    (loadChildren fs n p).isExpanded = n.isExpanded := by
  cases n
  rfl

theorem loadChildren_children (fs : FS) (n : TNode) (p : Option FPath) :
    (loadChildren fs n p).children = computeChildren fs p := by
  cases n
  rfl

/-- C4: for a fixed filesystem, loading a node twice with the same path
gives exactly the node that one load gives — the load discards old children
first, so repeated loads are idempotent and cannot accumulate duplicates. -/
theorem load_children_idempotent (fs : FS) (node : TNode) (path : Option FPath) :
    loadChildren fs (loadChildren fs node path) path = loadChildren fs node path := by
  unfold loadChildren
  exact setChildren_setChildren node _ _

/-- C5: a cancelled confirmation (`confirmed = false`) performs no
filesystem delete call, changes neither the filesystem nor the cursor
node's parent (the only tree-mutation surface of the handler), and only
notifies the cancellation. -/
theorem confirm_delete_cancel_frame (fs : FS) (cursor : Option TNode)
    (parentOf : Option TNode) :
    handle_delete_confirm fs cursor parentOf false =
      .ok ⟨fs, parentOf, [], [⟨"已取消删除", "提示"⟩]⟩ := rfl

/-- C9 (refuting the claim): with `confirmed = true` and no focused node at
confirmation time, `handle_delete_confirm` dereferences
`self.file_tree.cursor_node.data` outside its `try` block and an
`AttributeError` escapes uncaught, for every filesystem state. -/
theorem confirm_delete_no_cursor_raises (fs : FS) (parentOf : Option TNode) :
    handle_delete_confirm fs none parentOf true = .error .attributeError := rfl

/-- C1 (refuting the claim): a confirmed delete of a node whose path no
longer exists at deletion time does not fail with `NotFound`: the handler
performs no delete call, but still reloads and force-expands the parent and
reports plain success (`删除成功`). -/
theorem confirm_delete_vanished_reports_success :
    tmpFS.existsP ["tmp", "ghost.txt"] = false
    ∧ handle_delete_confirm tmpFS (some ghostNode) (some tmpDirNode) true =
        .ok ⟨tmpFS, some ((loadChildren tmpFS tmpDirNode (some ["tmp"])).setExpanded true),
          [], [⟨"已删除：ghost.txt", "删除成功"⟩]⟩
    ∧ ((loadChildren tmpFS tmpDirNode (some ["tmp"])).setExpanded true).isExpanded = true
    ∧ tmpDirNode.isExpanded = false := by
  refine ⟨rfl, ?_, rfl, rfl⟩
  rfl

theorem computeChildren_data (fs : FS) (pd : Option FPath) (c : TNode)
    (hc : c ∈ computeChildren fs pd) :
    c.data = none ∨ ∃ q ∈ fs.entries, c.data = some q.1 := by
  cases pd with
  | none => exact absurd hc (List.not_mem_nil c)
  | some p =>
    cases hd : fs.isDirP p with
    | false =>
      simp only [computeChildren, hd] at hc
      exact absurd hc (List.not_mem_nil c)
    | true =>
      simp only [computeChildren, hd, if_true] at hc
      cases hl : fs.listErr p with
      | none =>
        rw [hl] at hc
        simp only [List.mem_map] at hc
        obtain ⟨e, he, rfl⟩ := hc
        have he2 : e ∈ fs.iterdir p :=
          (List.mem_insertionSort entryRel).mp (List.mem_filter.mp he).1
        unfold FS.iterdir at he2
        simp only [List.mem_map] at he2
        obtain ⟨q, hq, rfl⟩ := he2
        refine Or.inr ⟨q, List.mem_of_mem_filter hq, ?_⟩
        by_cases hk : (fs.isDirP q.1 && !fs.isFileP q.1) = true
        · simp [hk, dirChildNode, TNode.data]
        · simp [hk, fileChildNode, TNode.data]
      | some le =>
        rw [hl] at hc
        cases le with
        | permissionError =>
          rw [List.mem_singleton.mp hc]
          exact Or.inl rfl
        | otherError m =>
          rw [List.mem_singleton.mp hc]
          exact Or.inl rfl

/-- C7: a whole-directory `PermissionError` during listing yields exactly
one synthetic, non-expandable permission placeholder child; any other
listing error yields exactly one placeholder child whose embedded message
is capped at 20 characters.  Both paths return normally. -/
theorem load_children_error_placeholders
    (fs1 : FS) (node1 : TNode) (p1 : FPath)
    (fs2 : FS) (node2 : TNode) (p2 : FPath) (m : String)
    (h1d : fs1.isDirP p1 = true) (h1e : fs1.listErr p1 = some .permissionError)
    (h2d : fs2.isDirP p2 = true) (h2e : fs2.listErr p2 = some (.otherError m)) :
    (loadChildren fs1 node1 (some p1)).children = [permissionPlaceholder]
    ∧ permissionPlaceholder.allowExpand = false
    ∧ (loadChildren fs2 node2 (some p2)).children = [loadErrorPlaceholder m]
    ∧ (loadErrorPlaceholder m).allowExpand = false
    ∧ (loadErrorPlaceholder m).label = "[加载错误: " ++ strTake m 20 ++ "]"
    ∧ (strTake m 20).length ≤ 20 := by
  refine ⟨?_, rfl, ?_, rfl, rfl, ?_⟩
  · rw [loadChildren_children]
    simp only [computeChildren, h1d, h1e, if_true]
  · rw [loadChildren_children]
    simp only [computeChildren, h2d, h2e, if_true]
  · show (strTake m 20).data.length ≤ 20
    simp only [strTake, List.length_take]
    omega

/-- C7 witness: both error shapes at concrete directories. -/
theorem load_children_error_placeholders_witness :
    permErrFS.isDirP ["locked"] = true
    ∧ permErrFS.listErr ["locked"] = some .permissionError
    ∧ otherErrFS.isDirP ["flaky"] = true
    ∧ otherErrFS.listErr ["flaky"] = some (.otherError "device not configured at all")
    ∧ ((loadChildren permErrFS sortExampleRoot (some ["locked"])).children = [permissionPlaceholder]
      ∧ permissionPlaceholder.allowExpand = false
      ∧ (loadChildren otherErrFS sortExampleRoot (some ["flaky"])).children
          = [loadErrorPlaceholder "device not configured at all"]
      ∧ (loadErrorPlaceholder "device not configured at all").allowExpand = false
      ∧ (loadErrorPlaceholder "device not configured at all").label
          = "[加载错误: " ++ strTake "device not configured at all" 20 ++ "]"
      ∧ (strTake "device not configured at all" 20).length ≤ 20) :=
  ⟨rfl, rfl, rfl, rfl,
    load_children_error_placeholders permErrFS sortExampleRoot ["locked"]
      otherErrFS sortExampleRoot ["flaky"] "device not configured at all"
      rfl rfl rfl rfl⟩

/-- C8: `open_file` satisfies the open contract for every environment and
path: the path is resolved first; a resolution error returns `false` with
nothing dispatched; otherwise exactly the platform mechanism runs, on the
resolved path, returning `true` exactly when it raised nothing — errors
surface as a `false` return, never as an exception. -/
theorem open_file_contract (env : OpenEnv) (p : FPath) : openContract env p := by
  unfold openContract
  cases hr : env.resolveRes p with
  | error e => simp [open_file, hr]
  | ok rp =>
    cases hp : env.platform with
    | win32 =>
      cases hs : env.startfileRes rp <;>
        simp [open_file, hr, hp, platformOpenMechanism, dispatchResult, hs]
    | linux =>
      cases hs : env.popenRes "xdg-open" rp <;>
        simp [open_file, hr, hp, platformOpenMechanism, dispatchResult, hs]
    | darwin =>
      cases hs : env.popenRes "open" rp <;>
        simp [open_file, hr, hp, platformOpenMechanism, dispatchResult, hs]
    | otherOS s => simp [platformOpenMechanism]

/-- C2: a confirmed delete of a file that exists at deletion time, with no
interfering OS error, issues exactly one `unlink` (and no other delete
call), reloads the parent node from the post-delete filesystem, leaves the
parent expanded, and the deleted entry is absent from the reloaded
children. -/
theorem confirm_delete_file_success (fs : FS) (sel par : TNode) (p : FPath)
    (hdata : sel.data = some p) (hfile : fs.isFileP p = true)
    (hnoerr : fs.unlinkErr p = none) (hmark : par.dataIsDir ≠ none) :
    handle_delete_confirm fs (some sel) (some par) true =
      .ok ⟨fs.removeFile p,
        some ((loadChildren (fs.removeFile p) par par.data).setExpanded true),
        [.unlink p], [⟨"已删除：" ++ pathName p, "删除成功"⟩]⟩
    ∧ ((loadChildren (fs.removeFile p) par par.data).setExpanded true).isExpanded = true
    ∧ ∀ c ∈ ((loadChildren (fs.removeFile p) par par.data).setExpanded true).children,
        c.data ≠ some p := by
  refine ⟨?_, setExpanded_isExpanded _ _, ?_⟩
  · obtain ⟨b, hb⟩ : ∃ b, par.dataIsDir = some b := by
      cases h : par.dataIsDir
      · exact absurd h hmark
      · exact ⟨_, rfl⟩
    simp only [handle_delete_confirm, FS.unlink, hdata, hfile, hnoerr, hb, if_true]
    simp
  · intro c hc
    rw [setExpanded_children, loadChildren_children] at hc
    rcases computeChildren_data (fs.removeFile p) par.data c hc with hnone | ⟨q, hq, hdq⟩
    · simp [hnone]
    · have hne : q.1 ≠ p := by
        have := (List.mem_filter.mp hq).2
        simpa using this
      rw [hdq]
      simp [hne]

/-- C2 witness: deleting the existing file `tmp/a.txt` from `tmpFS`. -/
theorem confirm_delete_file_success_witness :
    (fileNode "a.txt" ["tmp", "a.txt"]).data = some ["tmp", "a.txt"]
    ∧ tmpFS.isFileP ["tmp", "a.txt"] = true
    ∧ tmpFS.unlinkErr ["tmp", "a.txt"] = none
    ∧ tmpDirNode.dataIsDir ≠ none
    ∧ (handle_delete_confirm tmpFS (some (fileNode "a.txt" ["tmp", "a.txt"]))
          (some tmpDirNode) true =
        .ok ⟨tmpFS.removeFile ["tmp", "a.txt"],
          some ((loadChildren (tmpFS.removeFile ["tmp", "a.txt"]) tmpDirNode
            tmpDirNode.data).setExpanded true),
          [.unlink ["tmp", "a.txt"]],
          [⟨"已删除：" ++ pathName ["tmp", "a.txt"], "删除成功"⟩]⟩
      ∧ ((loadChildren (tmpFS.removeFile ["tmp", "a.txt"]) tmpDirNode
            tmpDirNode.data).setExpanded true).isExpanded = true
      ∧ ∀ c ∈ ((loadChildren (tmpFS.removeFile ["tmp", "a.txt"]) tmpDirNode
            tmpDirNode.data).setExpanded true).children,
          c.data ≠ some ["tmp", "a.txt"]) :=
  ⟨rfl, rfl, rfl, by decide,
    confirm_delete_file_success tmpFS (fileNode "a.txt" ["tmp", "a.txt"])
      tmpDirNode ["tmp", "a.txt"] rfl rfl rfl (by decide)⟩

/-- C6: the refresh target policy.  (a) A focused expandable directory is
itself reloaded and forced expanded, parent and roots untouched.  (b) A
focused file (no `data_is_dir` attribute) makes refresh reload its parent
and force the parent expanded, the cursor node untouched.  (c) With no
focused node, every top-level root (each carries the directory marker) is
reloaded and no expansion flag changes. -/
theorem refresh_three_way_policy (fs : FS)
    (selA : TNode) (parA : Option TNode) (rootsA : List TNode)
    (hA1 : selA.dataIsDir = some true) (hA2 : selA.data ≠ none)
    (selB parB : TNode) (rootsB : List TNode)
    (hB1 : selB.dataIsDir = none)
    (hB2 : parB.dataIsDir = some true)
    (parC : Option TNode) (roots : List TNode)
    (hC : ∀ r ∈ roots, r.dataIsDir = some true) :
    ((action_refresh fs (some selA) parA rootsA).cursor
        = some ((loadChildren fs selA selA.data).setExpanded true)
      ∧ ((loadChildren fs selA selA.data).setExpanded true).isExpanded = true
      ∧ (action_refresh fs (some selA) parA rootsA).cursorParent = parA
      ∧ (action_refresh fs (some selA) parA rootsA).rootChildren = rootsA)
    ∧ ((action_refresh fs (some selB) (some parB) rootsB).cursorParent
        = some ((loadChildren fs parB parB.data).setExpanded true)
      ∧ ((loadChildren fs parB parB.data).setExpanded true).isExpanded = true
      ∧ (action_refresh fs (some selB) (some parB) rootsB).cursor = some selB
      ∧ (action_refresh fs (some selB) (some parB) rootsB).rootChildren = rootsB)
    ∧ ((action_refresh fs none parC roots).rootChildren
        = roots.map (fun r => loadChildren fs r r.data)
      ∧ (action_refresh fs none parC roots).rootChildren.map TNode.isExpanded
        = roots.map TNode.isExpanded
      ∧ (action_refresh fs none parC roots).cursorParent = parC) := by
  refine ⟨?_, ?_, ?_⟩
  · have hcond : selA.dataIsDir = some true ∧ selA.data ≠ none := ⟨hA1, hA2⟩
    simp [action_refresh, if_pos hcond, setExpanded_isExpanded]
  · have hcond : ¬ (selB.dataIsDir = some true ∧ selB.data ≠ none) := by
      rw [hB1]
      rintro ⟨h, -⟩
      exact Option.noConfusion h
    have hne : parB.dataIsDir ≠ none := by
      rw [hB2]
      exact Option.some_ne_none _
    simp [action_refresh, if_neg hcond, if_pos hne, setExpanded_isExpanded]
  · have h1 : (action_refresh fs none parC roots).rootChildren
        = roots.map (fun r => loadChildren fs r r.data) := by
      simp only [action_refresh]
      exact List.map_congr_left fun r hr => if_pos (hC r hr)
    refine ⟨h1, ?_, by simp [action_refresh]⟩
    rw [h1, List.map_map]
    refine List.map_congr_left fun r hr => ?_
    simp only [Function.comp_apply, loadChildren_isExpanded]

/-- C6 witness: the three refresh contexts over `tmpFS`. -/
theorem refresh_three_way_policy_witness :
    (dirNode "📁 tmp" ["tmp"] false).dataIsDir = some true
    ∧ (dirNode "📁 tmp" ["tmp"] false).data ≠ none
    ∧ (fileNode "a.txt" ["tmp", "a.txt"]).dataIsDir = none
    ∧ tmpDirNode.dataIsDir = some true
    ∧ (∀ r ∈ [dirNode "📁 root" [] true], r.dataIsDir = some true)
    ∧ (((action_refresh tmpFS (some (dirNode "📁 tmp" ["tmp"] false)) none []).cursor
        = some ((loadChildren tmpFS (dirNode "📁 tmp" ["tmp"] false)
            (dirNode "📁 tmp" ["tmp"] false).data).setExpanded true)
      ∧ ((loadChildren tmpFS (dirNode "📁 tmp" ["tmp"] false)
            (dirNode "📁 tmp" ["tmp"] false).data).setExpanded true).isExpanded = true
      ∧ (action_refresh tmpFS (some (dirNode "📁 tmp" ["tmp"] false)) none []).cursorParent = none
      ∧ (action_refresh tmpFS (some (dirNode "📁 tmp" ["tmp"] false)) none []).rootChildren = [])
    ∧ ((action_refresh tmpFS (some (fileNode "a.txt" ["tmp", "a.txt"])) (some tmpDirNode) []).cursorParent
        = some ((loadChildren tmpFS tmpDirNode tmpDirNode.data).setExpanded true)
      ∧ ((loadChildren tmpFS tmpDirNode tmpDirNode.data).setExpanded true).isExpanded = true
      ∧ (action_refresh tmpFS (some (fileNode "a.txt" ["tmp", "a.txt"])) (some tmpDirNode) []).cursor
        = some (fileNode "a.txt" ["tmp", "a.txt"])
      ∧ (action_refresh tmpFS (some (fileNode "a.txt" ["tmp", "a.txt"])) (some tmpDirNode) []).rootChildren = [])
    ∧ ((action_refresh tmpFS none none [dirNode "📁 root" [] true]).rootChildren
        = [dirNode "📁 root" [] true].map (fun r => loadChildren tmpFS r r.data)
      ∧ (action_refresh tmpFS none none [dirNode "📁 root" [] true]).rootChildren.map TNode.isExpanded
        = [dirNode "📁 root" [] true].map TNode.isExpanded
      ∧ (action_refresh tmpFS none none [dirNode "📁 root" [] true]).cursorParent = none)) :=
  ⟨rfl, by decide, rfl, rfl, by decide,
    refresh_three_way_policy tmpFS (dirNode "📁 tmp" ["tmp"] false) none []
      rfl (by decide) (fileNode "a.txt" ["tmp", "a.txt"]) tmpDirNode [] rfl rfl
      none [dirNode "📁 root" [] true] (by decide)⟩

theorem confirm_ops_target (fs : FS) (cursor parentOf : Option TNode)
    (res : ConfirmResult)
    (hconf : handle_delete_confirm fs cursor parentOf true = .ok res)
    (op : FsOp) (hop : op ∈ res.ops) :
    ∃ sel p, cursor = some sel ∧ sel.data = some p
      ∧ (op = .unlink p ∨ op = .rmtree p) := by
  cases cursor with
  | none => simp [handle_delete_confirm] at hconf
  | some sel =>
    have hres : opsOf (handle_delete_confirm fs (some sel) parentOf true)
        = res.ops := by
      rw [hconf]
      rfl
    cases hd : sel.data with
    | none =>
      simp only [handle_delete_confirm, hd, not_true, if_false, opsOf] at hres
      rw [← hres] at hop
      exact absurd hop (List.not_mem_nil op)
    | some p =>
      refine ⟨sel, p, rfl, hd, ?_⟩
      cases hf : fs.isFileP p with
      | true =>
        cases hu : fs.unlink p with
        | ok fs2 =>
          simp only [handle_delete_confirm, hd, hf, not_true, if_false, if_true, hu, opsOf] at hres
          rw [← hres] at hop
          simp only [List.mem_singleton] at hop
          exact Or.inl hop
        | error e =>
          cases e <;>
            (simp only [handle_delete_confirm, hd, hf, not_true, if_false, if_true, hu, opsOf] at hres
             rw [← hres] at hop
             simp only [List.mem_singleton] at hop
             exact Or.inl hop)
      | false =>
        cases hdd : fs.isDirP p with
        | true =>
          cases hr : fs.rmtree p with
          | ok fs2 =>
            simp only [handle_delete_confirm, hd, hf, hdd, not_true, if_true,
              Bool.false_eq_true, if_false, hr, opsOf] at hres
            rw [← hres] at hop
            simp only [List.mem_singleton] at hop
            exact Or.inr hop
          | error e =>
            cases e <;>
              (simp only [handle_delete_confirm, hd, hf, hdd, not_true, if_true,
                Bool.false_eq_true, if_false, hr, opsOf] at hres
               rw [← hres] at hop
               simp only [List.mem_singleton] at hop
               exact Or.inr hop)
        | false =>
          simp only [handle_delete_confirm, hd, hf, hdd, not_true,
            Bool.false_eq_true, if_false, opsOf] at hres
          rw [← hres] at hop
          exact absurd hop (List.not_mem_nil op)


/-- C10: the path a confirmed delete acts on is re-read from the cursor at
confirmation time — any delete call issued targets the `data` of the node
under the cursor when the modal closed — and there are runs (cursor moved
while the modal was open) where that path differs from the one the dialog
displayed. -/
theorem delete_uses_confirm_time_cursor
    (fs : FS) (curReq curConf parConf : Option TNode)
    (dp : FPath) (res : ConfirmResult) (q : FPath)
    (hreq : action_delete_selected fs curReq = .showConfirm dp)
    (hconf : handle_delete_confirm fs curConf parConf true = .ok res)
    (hop : FsOp.unlink q ∈ res.ops ∨ FsOp.rmtree q ∈ res.ops) :
    (∀ c, curReq = some c → c.data = some dp)
    ∧ (∃ c, curConf = some c ∧ c.data = some q)
    ∧ (action_delete_selected tmpFS (some (fileNode "a.txt" ["tmp", "a.txt"]))
        = .showConfirm ["tmp", "a.txt"]
      ∧ opsOf (handle_delete_confirm tmpFS (some (fileNode "b.txt" ["tmp", "b.txt"]))
          (some tmpDirNode) true) = [.unlink ["tmp", "b.txt"]]
      ∧ (["tmp", "a.txt"] : FPath) ≠ ["tmp", "b.txt"]) := by
  refine ⟨?_, ?_, rfl, rfl, by decide⟩
  · intro c hc
    subst hc
    cases hd : c.data with
    | none => simp [action_delete_selected, hd] at hreq
    | some p =>
      simp only [action_delete_selected, hd] at hreq
      by_cases he : fs.existsP p = true
      · rw [if_pos he] at hreq
        cases hreq
        rfl
      · rw [if_neg he] at hreq
        cases hreq
  rcases hop with h | h
  · obtain ⟨sel, p, hcur, hdata, hu | hu⟩ :=
      confirm_ops_target fs curConf parConf res hconf _ h
    · cases hu
      exact ⟨sel, hcur, hdata⟩
    · cases hu
  · obtain ⟨sel, p, hcur, hdata, hu | hu⟩ :=
      confirm_ops_target fs curConf parConf res hconf _ h
    · cases hu
    · cases hu
      exact ⟨sel, hcur, hdata⟩

/-- C10 witness: a run over `tmpFS` in which the dialog was requested for
`tmp/a.txt` but the cursor sat on `tmp/b.txt` at confirmation time. -/
theorem delete_uses_confirm_time_cursor_witness :
    action_delete_selected tmpFS (some (fileNode "a.txt" ["tmp", "a.txt"]))
      = .showConfirm ["tmp", "a.txt"]
    ∧ handle_delete_confirm tmpFS (some (fileNode "b.txt" ["tmp", "b.txt"]))
        (some tmpDirNode) true = .ok resAfterDeleteB
    ∧ (FsOp.unlink ["tmp", "b.txt"] ∈ resAfterDeleteB.ops
        ∨ FsOp.rmtree ["tmp", "b.txt"] ∈ resAfterDeleteB.ops)
    ∧ ((∀ c, (some (fileNode "a.txt" ["tmp", "a.txt"]) : Option TNode) = some c →
          c.data = some ["tmp", "a.txt"])
      ∧ (∃ c, (some (fileNode "b.txt" ["tmp", "b.txt"]) : Option TNode) = some c
          ∧ c.data = some ["tmp", "b.txt"])
      ∧ (action_delete_selected tmpFS (some (fileNode "a.txt" ["tmp", "a.txt"]))
          = .showConfirm ["tmp", "a.txt"]
        ∧ opsOf (handle_delete_confirm tmpFS (some (fileNode "b.txt" ["tmp", "b.txt"]))
            (some tmpDirNode) true) = [.unlink ["tmp", "b.txt"]]
        ∧ (["tmp", "a.txt"] : FPath) ≠ ["tmp", "b.txt"])) :=
  ⟨rfl, rfl, Or.inl (List.mem_singleton.mpr rfl),
    delete_uses_confirm_time_cursor tmpFS
      (some (fileNode "a.txt" ["tmp", "a.txt"]))
      (some (fileNode "b.txt" ["tmp", "b.txt"])) (some tmpDirNode)
      ["tmp", "a.txt"] resAfterDeleteB ["tmp", "b.txt"]
      rfl rfl (Or.inl (List.mem_singleton.mpr rfl))⟩

theorem charListLe_total (l1 l2 : List Char) :
    charListLe l1 l2 = true ∨ charListLe l2 l1 = true := by
  induction l1 generalizing l2 with
  | nil => exact Or.inl rfl
  | cons c cs ih =>
    cases l2 with
    | nil => exact Or.inr rfl
    | cons d ds =>
      by_cases h1 : c.toNat < d.toNat
      · exact Or.inl (by simp [charListLe, h1])
      · by_cases h2 : d.toNat < c.toNat
        · exact Or.inr (by simp [charListLe, h1, h2])
        · rcases ih ds with h | h
          · exact Or.inl (by simp [charListLe, h1, h2, h])
          · exact Or.inr (by simp [charListLe, h1, h2, h])

theorem charListLe_trans (l1 l2 l3 : List Char)
    (h12 : charListLe l1 l2 = true) (h23 : charListLe l2 l3 = true) :
    charListLe l1 l3 = true := by
  induction l1 generalizing l2 l3 with
  | nil => rfl
  | cons c cs ih =>
    cases l2 with
    | nil => simp [charListLe] at h12
    | cons d ds =>
      cases l3 with
      | nil => simp [charListLe] at h23
      | cons e es =>
        simp only [charListLe] at h12 h23 ⊢
        by_cases hcd : c.toNat < d.toNat
        · by_cases hde : d.toNat < e.toNat
          · simp [show c.toNat < e.toNat from Nat.lt_trans hcd hde]
          · by_cases hed : e.toNat < d.toNat
            · simp [hde, hed] at h23
            · have : d.toNat = e.toNat := by omega
              simp [show c.toNat < e.toNat by omega]
        · by_cases hdc : d.toNat < c.toNat
          · simp [hcd, hdc] at h12
          · have hcde : c.toNat = d.toNat := by omega
            by_cases hde : d.toNat < e.toNat
            · simp [show c.toNat < e.toNat by omega]
            · by_cases hed : e.toNat < d.toNat
              · simp [hde, hed] at h23
              · have h1 : ¬ c.toNat < e.toNat := by omega
                have h2 : ¬ e.toNat < c.toNat := by omega
                simp only [h1, h2, if_false]
                simp only [hcd, hdc, if_false] at h12
                simp only [hde, hed, if_false] at h23
                exact ih ds es h12 h23

theorem entryRel_total : ∀ a b : FsEntry, entryRel a b ∨ entryRel b a := by
  intro a b
  unfold entryRel entryLE
  rcases Nat.lt_trichotomy (entryKindKey a) (entryKindKey b) with h | h | h
  · exact Or.inl (by simp [h])
  · rcases charListLe_total (pyLower a.name).data (pyLower b.name).data with hs | hs
    · exact Or.inl (by simp [h, strLe, hs])
    · exact Or.inr (by simp [h.symm, strLe, hs])
  · exact Or.inr (by simp [h])

theorem entryRel_trans : ∀ a b c : FsEntry,
    entryRel a b → entryRel b c → entryRel a c := by
  intro a b c hab hbc
  unfold entryRel entryLE at hab hbc ⊢
  simp only [Bool.or_eq_true, Bool.and_eq_true, decide_eq_true_eq] at hab hbc ⊢
  rcases hab with h1 | ⟨h1, hs1⟩
  · rcases hbc with h2 | ⟨h2, hs2⟩
    · exact Or.inl (Nat.lt_trans h1 h2)
    · exact Or.inl (h2 ▸ h1)
  · rcases hbc with h2 | ⟨h2, hs2⟩
    · exact Or.inl (h1 ▸ h2)
    · exact Or.inr ⟨h1.trans h2,
        charListLe_trans (pyLower a.name).data (pyLower b.name).data
          (pyLower c.name).data hs1 hs2⟩

instance : IsTotal FsEntry entryRel := ⟨entryRel_total⟩

instance : IsTrans FsEntry entryRel := ⟨fun a b c => entryRel_trans a b c⟩

theorem iterdir_probes (fs : FS) (p : FPath) (e : FsEntry)
    (he : e ∈ fs.iterdir p) :
    e.isDir = fs.isDirP e.path ∧ e.isFile = fs.isFileP e.path
      ∧ e.name = pathName e.path := by
  unfold FS.iterdir at he
  simp only [List.mem_map] at he
  obtain ⟨q, hq, rfl⟩ := he
  exact ⟨rfl, rfl, rfl⟩

theorem isDirP_not_isFileP (fs : FS) (x : FPath) (h : fs.isDirP x = true) :
    fs.isFileP x = false := by
  unfold FS.isDirP at h
  unfold FS.isFileP
  rw [beq_iff_eq] at h
  rw [h]
  rfl

theorem iterdir_dir_not_file (fs : FS) (p : FPath) (e : FsEntry)
    (he : e ∈ fs.iterdir p) (hd : e.isDir = true) : e.isFile = false := by
  obtain ⟨h1, h2, -⟩ := iterdir_probes fs p e he
  rw [h2]
  exact isDirP_not_isFileP fs e.path (h1 ▸ hd)

/-- C3: every successful directory load yields children in which no file
precedes a directory and, within each group, the lowercased names are in
nondecreasing code-point order; and the concrete directory holding
`bravo/`, `Alpha.txt`, `charlie/`, `alpha.txt` loads in exactly the order
bravo, charlie, Alpha.txt, alpha.txt.  A reload recomputes the same
ordering, as the load is a pure function of the filesystem state. -/
theorem load_children_sorted (fs : FS) (node : TNode) (p : FPath)
    (hdir : fs.isDirP p = true) (hok : fs.listErr p = none) :
    ((loadChildren fs node (some p)).children).Pairwise childOrdered
    ∧ ((loadChildren sortExampleFS sortExampleRoot (some [])).children).map TNode.label
        = ["📁 bravo", "📁 charlie", "Alpha.txt", "alpha.txt"] := by
  constructor
  · rw [loadChildren_children]
    simp only [computeChildren, hdir, hok, if_true]
    rw [List.pairwise_map]
    have hsorted : (List.insertionSort entryRel (fs.iterdir p)).Pairwise entryRel :=
      List.sorted_insertionSort entryRel (fs.iterdir p)
    have hfil : ((List.insertionSort entryRel (fs.iterdir p)).filter
        fun e => !e.permErr).Pairwise entryRel :=
      hsorted.sublist (List.filter_sublist _)
    refine List.Pairwise.imp_of_mem ?_ hfil
    intro e1 e2 h1 h2 hle
    have m1 : e1 ∈ fs.iterdir p :=
      (List.mem_insertionSort entryRel).mp (List.mem_filter.mp h1).1
    have m2 : e2 ∈ fs.iterdir p :=
      (List.mem_insertionSort entryRel).mp (List.mem_filter.mp h2).1
    obtain ⟨-, -, hn1⟩ := iterdir_probes fs p e1 m1
    obtain ⟨-, -, hn2⟩ := iterdir_probes fs p e2 m2
    have hc1 : (e1.isDir && !e1.isFile) = e1.isDir := by
      cases h : e1.isDir
      · simp
      · simp [iterdir_dir_not_file fs p e1 m1 h]
    have hc2 : (e2.isDir && !e2.isFile) = e2.isDir := by
      cases h : e2.isDir
      · simp
      · simp [iterdir_dir_not_file fs p e2 m2 h]
    rw [hc1, hc2]
    unfold entryRel entryLE at hle
    cases hd1 : e1.isDir <;> cases hd2 : e2.isDir <;>
      simp only [entryKindKey, hd1, hd2, if_true, if_false, Bool.false_eq_true,
        Bool.or_eq_true, Bool.and_eq_true, decide_eq_true_eq] at hle
    · simp only [Bool.false_eq_true, if_false]
      refine ⟨by simp [fileChildNode, TNode.dataIsDir], fun _ => ?_⟩
      have hs : strLe (pyLower e1.name) (pyLower e2.name) = true := by
        rcases hle with h | ⟨-, h⟩
        · omega
        · exact h
      simpa [childName, fileChildNode, TNode.data, ← hn1, ← hn2] using hs
    · exfalso
      rcases hle with h | ⟨h, -⟩ <;> omega
    · simp [childOrdered, dirChildNode, fileChildNode, TNode.dataIsDir]
    · simp only [if_true]
      refine ⟨fun _ => rfl, fun _ => ?_⟩
      have hs : strLe (pyLower e1.name) (pyLower e2.name) = true := by
        rcases hle with h | ⟨-, h⟩
        · omega
        · exact h
      simpa [childName, dirChildNode, TNode.data, ← hn1, ← hn2] using hs
  · decide

/-- C3 witness: the example directory of the claim. -/
theorem load_children_sorted_witness :
    sortExampleFS.isDirP [] = true
    ∧ sortExampleFS.listErr [] = none
    ∧ (((loadChildren sortExampleFS sortExampleRoot (some [])).children).Pairwise childOrdered
      ∧ ((loadChildren sortExampleFS sortExampleRoot (some [])).children).map TNode.label
          = ["📁 bravo", "📁 charlie", "Alpha.txt", "alpha.txt"]) :=
  ⟨rfl, rfl, load_children_sorted sortExampleFS sortExampleRoot [] rfl rfl⟩
